import Mathlib

/-!
Shallow embedding of `src/generator.py` (Set-List-Generator).

Python values are modelled as follows:
* a song dict `{'name': ..., 'performers': ...}` becomes the structure `Item`
  (a Python `set` of strings becomes a `Finset String`; Python `==` on such
  dicts becomes structural equality on `Item`);
* `float` scores are exact integers here (`Int`): the source only ever adds
  and subtracts integer penalties starting from `0.0`, and `float('-inf')`
  becomes `(⊥ : WithBot Int)`;
* `random.shuffle` is modelled by an oracle: each optimizer iteration receives
  the shuffled pool it would have produced as an explicit argument
  (a run of the source corresponds to oracle entries that are permutations of
  `available_songs`);
* the mutable locals of `generateSetlist` are threaded explicitly through the
  record `OptState`; each translated statement updates exactly the fields that
  the corresponding Python statement assigns or mutates, so the caller-visible
  lists (`songs`, `guest_performances`) are fields that the trial loop only
  reads;
* `raise` becomes `Except.error` (`PyError.missingAnchor` models the
  `ValueError` raised for absent anchors, `PyError.noneSubscript` models the
  `TypeError` that `best_setlist[0:5]` raises when `best_setlist is None`,
  i.e. when the iteration count is zero).
-/

/-- A song: `{'name': song_info, 'performers': set(performers)}`. -/
structure Item where
  name : String
  performers : Finset String
deriving DecidableEq

instance : Inhabited Item := ⟨⟨"", ∅⟩⟩

/-- Python `lst.insert(pos, x)` (and also the slice expression
`lst[:pos] + [x] + lst[pos:]`): both clamp `pos` to the length. -/
def pyInsert (l : List Item) (pos : Nat) (x : Item) : List Item :=
  l.take pos ++ [x] ++ l.drop pos

/-- Python substring containment on character lists: `needle in hay`. -/
def charsIn (needle : List Char) : List Char → Bool
  | [] => needle.isEmpty
  | c :: rest => needle.isPrefixOf (c :: rest) || charsIn needle rest

/-- Python `needle in hay` for strings. -/
def strIn (needle hay : String) : Bool :=
  charsIn needle.toList hay.toList

/-- `calculate_overlap`: size of the intersection of the two performer sets. -/
def calculate_overlap (song1 song2 : Item) : Nat :=
  (song1.performers ∩ song2.performers).card

/-- `calculate_setlist_score`: the nested `for` loops, each translated as a
`foldl` over the corresponding Python `range`; `score -= penalty` is the
accumulator update. -/
def calculate_setlist_score (setlist : List Item) : Int :=
  (List.range setlist.length).foldl (fun score i =>
    (List.range' (i + 1) (min (i + 4) setlist.length - (i + 1))).foldl
      (fun score j =>
        score -
          (calculate_overlap (setlist.getD i default) (setlist.getD j default) : Int) *
            ((4 - (j - i) : Nat) : Int) * 10)
      score)
    0

/-- The window scored inside `find_best_position_for_song`:
`test_list = partial_setlist[:pos] + [song] + partial_setlist[pos:]` followed by
`test_list[max(0, pos-3):min(len(test_list), pos+4)]`. -/
def trial_window (cur_setlist : List Item) (song : Item) (pos : Nat) : List Item :=
  let test_list := pyInsert cur_setlist pos song
  (test_list.drop (pos - 3)).take (min test_list.length (pos + 4) - (pos - 3))

/-- Score of the trial window at an insertion position. -/
def windowScore (cur_setlist : List Item) (song : Item) (pos : Nat) : Int :=
  calculate_setlist_score (trial_window cur_setlist song pos)

/-- `find_best_position_for_song`: fold over `range(start_idx, end_idx + 1)`
carrying `(best_score, best_position)`, initialised to
`(float('-inf'), start_idx)`; only a strictly larger score replaces the
incumbent. -/
def find_best_position_for_song (cur_setlist : List Item) (song : Item)
    (start_idx end_idx : Nat) : Nat :=
  ((List.range' start_idx (end_idx + 1 - start_idx)).foldl
    (fun st pos =>
      if st.1 < ((windowScore cur_setlist song pos : Int) : WithBot Int) then
        (((windowScore cur_setlist song pos : Int) : WithBot Int), pos)
      else st)
    ((⊥ : WithBot Int), start_idx)).2

/-- `total_needed = 19` in `generateSetlist`. -/
def total_needed : Nat := 19

/-- Phase 1 of a trial: `while len(setlist) < total_needed and remaining:`,
popping the front of `remaining` and inserting it (appending when the setlist
is still empty, else at the position chosen by `find_best_position_for_song`).
Returns the final values of `(setlist, remaining)`. -/
def phase1 (setlist : List Item) : List Item → List Item × List Item
  | [] => (setlist, [])
  | song :: rest =>
    if setlist.length < total_needed then
      if setlist.length = 0 then
        phase1 (setlist ++ [song]) rest
      else
        phase1
          (pyInsert setlist
            (find_best_position_for_song setlist song 0 setlist.length) song) rest
    else (setlist, song :: rest)

/-- Phase 2 of a trial: `while len(setlist) < total_needed and guest_idx <
len(guest_performances):`, inserting guest `guest_idx` at
`(len(setlist) * (guest_idx + 1)) // (len(guest_performances) + 1)`.
The still-unplaced suffix `guests.drop guest_idx` is passed structurally as
`pending`. -/
def guestPhase (guests setlist : List Item) (guest_idx : Nat) :
    List Item → List Item
  | [] => setlist
  | guest :: rest =>
    if setlist.length < total_needed then
      guestPhase guests
        (pyInsert setlist
          (setlist.length * (guest_idx + 1) / (guests.length + 1)) guest)
        (guest_idx + 1) rest
    else setlist

/-- The mutable locals of `generateSetlist`, threaded explicitly.  `songs` and
`guest_performances` are the caller's lists; the remaining fields are the
locals the loop assigns. -/
structure OptState where
  songs : List Item
  guest_performances : List Item
  available_songs : List Item
  shuffled : List Item
  remaining : List Item
  setlist : List Item
  best_score : WithBot Int
  best_setlist : Option (List Item)
deriving DecidableEq

/-- One iteration of the optimizer loop up to (and including)
`setlist.extend([bouncy, this_world])`: shuffle (oracle `σ`), `setlist = []`,
`remaining = shuffled.copy()`, phase 1, phase 2, append the anchors. -/
def pyBuild (bouncy this_world : Item) (st : OptState) (σ : List Item) :
    OptState :=
  let st1 := { st with shuffled := σ }
  let st2 := { st1 with setlist := [], remaining := st1.shuffled }
  let p := phase1 st2.setlist st2.remaining
  let st3 := { st2 with setlist := p.1, remaining := p.2 }
  let st4 := { st3 with
    setlist := guestPhase st3.guest_performances st3.setlist 0
      st3.guest_performances }
  { st4 with setlist := st4.setlist ++ [bouncy, this_world] }

/-- One full iteration: build, score, and `if score > best_score:` record the
new best (`best_setlist = setlist.copy()`). -/
def pyIteration (bouncy this_world : Item) (st : OptState) (σ : List Item) :
    OptState :=
  let st6 := pyBuild bouncy this_world st σ
  let score := calculate_setlist_score st6.setlist
  if st6.best_score < ((score : Int) : WithBot Int) then
    { st6 with best_score := ((score : Int) : WithBot Int),
               best_setlist := some st6.setlist }
  else st6

/-- `for iteration in range(iterations):` — one `pyIteration` per oracle
entry. -/
def pyLoop (bouncy this_world : Item) (st : OptState) :
    List (List Item) → OptState
  | [] => st
  | σ :: rest => pyLoop bouncy this_world (pyIteration bouncy this_world st σ) rest

/-- The final group slicing `[best_setlist[0:5], best_setlist[5:10],
best_setlist[10:15], best_setlist[15:21]]`. -/
def splitGroups (best_setlist : List Item) : List (List Item) :=
  [best_setlist.take 5,
   (best_setlist.drop 5).take 5,
   (best_setlist.drop 10).take 5,
   (best_setlist.drop 15).take 6]

/-- The exceptions `generateSetlist` can raise. -/
inductive PyError where
  | missingAnchor
  | noneSubscript
deriving DecidableEq

/-- `generateSetlist(songs, guest_performances, iterations)`, with the
shuffle oracle `shuffles` supplying one shuffled pool per iteration
(`iterations = shuffles.length`). -/
def generateSetlist (songs guest_performances : List Item)
    (shuffles : List (List Item)) : Except PyError (List (List Item)) :=
  match songs.find? (fun s => strIn "Bouncy" s.name),
        songs.find? (fun s => strIn "This World" s.name) with
  | some bouncy, some this_world =>
    let available_songs :=
      songs.filter (fun s => !(decide (s = bouncy) || decide (s = this_world)))
    let st0 : OptState :=
      { songs := songs, guest_performances := guest_performances,
        available_songs := available_songs, shuffled := [], remaining := [],
        setlist := [], best_score := ⊥, best_setlist := none }
    match (pyLoop bouncy this_world st0 shuffles).best_setlist with
    | some best_setlist => .ok (splitGroups best_setlist)
    | none => .error .noneSubscript
  | _, _ => .error .missingAnchor

theorem foldl_sub {α : Type} (g : α → Int) :
    ∀ (l : List α) (init : Int),
      l.foldl (fun acc x => acc - g x) init = init - (l.map g).sum
  | [], init => by simp
  | x :: l, init => by
    simp [List.foldl_cons, foldl_sub g l, sub_sub]

theorem sum_map_range' {M : Type} [AddCommMonoid M] (g : Nat → M) :
    ∀ (len a : Nat),
      ((List.range' a len).map g).sum = ∑ j ∈ Finset.Ico a (a + len), g j
  | 0, a => by simp
  | len + 1, a => by
    rw [List.range'_succ]
    simp only [List.map_cons, List.sum_cons, sum_map_range' g len (a + 1)]
    rw [Finset.sum_eq_sum_Ico_succ_bot (by omega : a < a + (len + 1)),
      show a + (len + 1) = a + 1 + len by omega]

theorem sum_map_range {M : Type} [AddCommMonoid M] (g : Nat → M) (n : Nat) :
    ((List.range n).map g).sum = ∑ i ∈ Finset.range n, g i := by
  rw [List.range_eq_range', sum_map_range' g n 0, Finset.range_eq_Ico]
  simp

/-- Penalty of the ordered pair of positions `(i, j)`. -/
def pairPenalty (s : List Item) (i j : Nat) : Nat :=
  calculate_overlap (s.getD i default) (s.getD j default) * (4 - (j - i)) * 10

/-- The specification-side total: the sum of `pairPenalty` over all ordered
position pairs `(i, j)` with `j ∈ {i+1, i+2, i+3}` and `j` inside the
sequence. -/
def specPenaltySum (s : List Item) : Nat :=
  ∑ i ∈ Finset.range s.length, ∑ j ∈ Finset.range s.length,
    if i < j ∧ j ≤ i + 3 then pairPenalty s i j else 0

theorem score_eq_neg_specSum (s : List Item) :
    calculate_setlist_score s = -(specPenaltySum s : Int) := by
  unfold calculate_setlist_score specPenaltySum
  simp only [foldl_sub, sum_map_range', sum_map_range]
  rw [zero_sub, neg_inj]
  push_cast
  refine Finset.sum_congr rfl (fun i hi => ?_)
  rw [Finset.mem_range] at hi
  have hb : i + 1 + (min (i + 4) s.length - (i + 1)) = min (i + 4) s.length := by
    omega
  rw [hb]
  have hset : Finset.Ico (i + 1) (min (i + 4) s.length)
      = (Finset.range s.length).filter (fun j => i < j ∧ j ≤ i + 3) := by
    ext j
    simp only [Finset.mem_Ico, Finset.mem_filter, Finset.mem_range]
    omega
  rw [hset, Finset.sum_filter]
  refine Finset.sum_congr rfl (fun j hj => ?_)
  unfold pairPenalty
  push_cast [apply_ite (fun n : Nat => (n : Int))]
  split
  · ring
  · rfl

/-- C2: `calculate_setlist_score` returns the negation of the sum, over all
ordered position pairs `(i, j)` with `j ∈ {i+1, i+2, i+3}` and `j` within the
sequence, of `overlap * (4 - (j - i)) * 10`; as a Lean function it is pure by
construction. -/
theorem calculate_setlist_score_is_neg_pair_sum (s : List Item) :
    calculate_setlist_score s = -(specPenaltySum s : Int) :=
  score_eq_neg_specSum s

/-- C7: the score is always `≤ 0`, and it is `0` exactly when no two items at
distance at most 3 share a performer. -/
theorem score_nonpos_and_zero_iff (s : List Item) :
    calculate_setlist_score s ≤ 0 ∧
      (calculate_setlist_score s = 0 ↔
        ∀ i j, i < j → j < s.length → j - i ≤ 3 →
          (s.getD i default).performers ∩ (s.getD j default).performers = ∅) := by
  constructor
  · rw [score_eq_neg_specSum]
    simp
  · rw [score_eq_neg_specSum, neg_eq_zero, Nat.cast_eq_zero]
    unfold specPenaltySum
    rw [Finset.sum_eq_zero_iff]
    constructor
    · intro h i j hij hj hd
      have hi : i ∈ Finset.range s.length := Finset.mem_range.mpr (by omega)
      have hrow := h i hi
      rw [Finset.sum_eq_zero_iff] at hrow
      have hterm := hrow j (Finset.mem_range.mpr hj)
      rw [if_pos ⟨hij, by omega⟩] at hterm
      unfold pairPenalty calculate_overlap at hterm
      have hcard :
          ((s.getD i default).performers ∩ (s.getD j default).performers).card
            = 0 := by
        rcases Nat.mul_eq_zero.mp hterm with h1 | h1
        · rcases Nat.mul_eq_zero.mp h1 with h2 | h2
          · exact h2
          · omega
        · omega
      exact Finset.card_eq_zero.mp hcard
    · intro h i hi
      refine Finset.sum_eq_zero (fun j hj => ?_)
      by_cases hc : i < j ∧ j ≤ i + 3
      · rw [if_pos hc]
        unfold pairPenalty calculate_overlap
        rw [h i j hc.1 (Finset.mem_range.mp hj) (by omega)]
        simp
      · rw [if_neg hc]

/-- Invariant of the best-position fold: the running best only grows, bounds
every scanned score, and the recorded position is the first strictly-improving
one. -/
theorem foldl_best (sc : Nat → Int) :
    ∀ (l : List Nat) (b₀ : WithBot Int) (p₀ : Nat), l.Pairwise (· < ·) →
      (b₀ ≤ (l.foldl (fun st pos =>
          if st.1 < ((sc pos : Int) : WithBot Int) then
            (((sc pos : Int) : WithBot Int), pos)
          else st) (b₀, p₀)).1) ∧
      (∀ x ∈ l, ((sc x : Int) : WithBot Int) ≤ (l.foldl (fun st pos =>
          if st.1 < ((sc pos : Int) : WithBot Int) then
            (((sc pos : Int) : WithBot Int), pos)
          else st) (b₀, p₀)).1) ∧
      ((l.foldl (fun st pos =>
          if st.1 < ((sc pos : Int) : WithBot Int) then
            (((sc pos : Int) : WithBot Int), pos)
          else st) (b₀, p₀)) = (b₀, p₀) ∨
        ((l.foldl (fun st pos =>
          if st.1 < ((sc pos : Int) : WithBot Int) then
            (((sc pos : Int) : WithBot Int), pos)
          else st) (b₀, p₀)).2 ∈ l ∧
         (l.foldl (fun st pos =>
          if st.1 < ((sc pos : Int) : WithBot Int) then
            (((sc pos : Int) : WithBot Int), pos)
          else st) (b₀, p₀)).1 =
            ((sc (l.foldl (fun st pos =>
              if st.1 < ((sc pos : Int) : WithBot Int) then
                (((sc pos : Int) : WithBot Int), pos)
              else st) (b₀, p₀)).2 : Int) : WithBot Int) ∧
         b₀ < (l.foldl (fun st pos =>
          if st.1 < ((sc pos : Int) : WithBot Int) then
            (((sc pos : Int) : WithBot Int), pos)
          else st) (b₀, p₀)).1 ∧
         ∀ x ∈ l, x < (l.foldl (fun st pos =>
          if st.1 < ((sc pos : Int) : WithBot Int) then
            (((sc pos : Int) : WithBot Int), pos)
          else st) (b₀, p₀)).2 →
            ((sc x : Int) : WithBot Int) < (l.foldl (fun st pos =>
              if st.1 < ((sc pos : Int) : WithBot Int) then
                (((sc pos : Int) : WithBot Int), pos)
              else st) (b₀, p₀)).1))
  | [], b₀, p₀, _ => by simp
  | a :: l, b₀, p₀, hpw => by
    rw [List.pairwise_cons] at hpw
    obtain ⟨ha, hl⟩ := hpw
    rw [List.foldl_cons]
    by_cases hup : b₀ < ((sc a : Int) : WithBot Int)
    · rw [if_pos hup]
      obtain ⟨h1, h2, h3⟩ := foldl_best sc l ((sc a : Int) : WithBot Int) a hl
      refine ⟨le_of_lt (lt_of_lt_of_le hup h1), ?_, ?_⟩
      · intro x hx
        rcases List.mem_cons.mp hx with rfl | hx
        · exact h1
        · exact h2 x hx
      · rcases h3 with heq | ⟨hmem, hsc, hb, hfirst⟩
        · refine Or.inr ?_
          rw [heq]
          refine ⟨List.mem_cons_self a l, rfl, hup, ?_⟩
          intro x hx hxa
          rcases List.mem_cons.mp hx with rfl | hx
          · exact absurd hxa (lt_irrefl x)
          · exact absurd hxa (not_lt_of_gt (ha x hx))
        · refine Or.inr ⟨List.mem_cons_of_mem a hmem, hsc, lt_trans hup hb, ?_⟩
          intro x hx hxr
          rcases List.mem_cons.mp hx with rfl | hx
          · exact hb
          · exact hfirst x hx hxr
    · rw [if_neg hup]
      obtain ⟨h1, h2, h3⟩ := foldl_best sc l b₀ p₀ hl
      have hsa : ((sc a : Int) : WithBot Int) ≤ b₀ := not_lt.mp hup
      refine ⟨h1, ?_, ?_⟩
      · intro x hx
        rcases List.mem_cons.mp hx with rfl | hx
        · exact le_trans hsa h1
        · exact h2 x hx
      · rcases h3 with heq | ⟨hmem, hsc, hb, hfirst⟩
        · exact Or.inl heq
        · refine Or.inr ⟨List.mem_cons_of_mem a hmem, hsc, hb, ?_⟩
          intro x hx hxr
          rcases List.mem_cons.mp hx with rfl | hx
          · exact lt_of_le_of_lt hsa hb
          · exact hfirst x hx hxr

/-- C3: with `start_idx ≤ end_idx`, `find_best_position_for_song` returns the
smallest position in `[start_idx, end_idx]` that maximizes the window score;
ties keep the earliest-scanned position. -/
theorem find_best_position_spec (cur : List Item) (song : Item) (s e : Nat)
    (h : s ≤ e) :
    s ≤ find_best_position_for_song cur song s e ∧
      find_best_position_for_song cur song s e ≤ e ∧
      (∀ q, s ≤ q → q ≤ e →
        windowScore cur song q ≤
          windowScore cur song (find_best_position_for_song cur song s e)) ∧
      (∀ q, s ≤ q → q < find_best_position_for_song cur song s e →
        windowScore cur song q <
          windowScore cur song (find_best_position_for_song cur song s e)) := by
  obtain ⟨h1, h2, h3⟩ := foldl_best (windowScore cur song)
    (List.range' s (e + 1 - s)) ⊥ s (List.pairwise_lt_range' s (e + 1 - s))
  rcases h3 with heq | ⟨hmem, hsc, hb, hfirst⟩
  · exfalso
    have hs : s ∈ List.range' s (e + 1 - s) :=
      List.mem_range'_1.mpr ⟨le_refl s, by omega⟩
    have hle := h2 s hs
    rw [heq] at hle
    exact WithBot.not_coe_le_bot _ hle
  · unfold find_best_position_for_song
    rw [List.mem_range'_1] at hmem
    refine ⟨hmem.1, by omega, ?_, ?_⟩
    · intro q hq1 hq2
      have hq : q ∈ List.range' s (e + 1 - s) :=
        List.mem_range'_1.mpr ⟨hq1, by omega⟩
      have hle := h2 q hq
      rw [hsc] at hle
      exact_mod_cast hle
    · intro q hq1 hq2
      have hq : q ∈ List.range' s (e + 1 - s) :=
        List.mem_range'_1.mpr ⟨hq1, by omega⟩
      have hlt := hfirst q hq hq2
      rw [hsc] at hlt
      exact_mod_cast hlt

theorem pyInsert_length (l : List Item) (p : Nat) (x : Item) :
    (pyInsert l p x).length = l.length + 1 := by
  simp [pyInsert]
  omega

theorem pyInsert_perm (l : List Item) (p : Nat) (x : Item) :
    List.Perm (pyInsert l p x) (x :: l) := by
  have h : List.Perm (l.take p ++ x :: l.drop p) (x :: (l.take p ++ l.drop p)) :=
    List.perm_middle
  rw [List.take_append_drop] at h
  simpa [pyInsert] using h

theorem phase1_length :
    ∀ (rem setlist : List Item),
      (phase1 setlist rem).1.length =
        setlist.length + min (total_needed - setlist.length) rem.length
  | [], setlist => by simp [phase1]
  | song :: rest, setlist => by
    simp only [phase1]
    by_cases h : setlist.length < total_needed
    · rw [if_pos h]
      by_cases h0 : setlist.length = 0
      · rw [if_pos h0, phase1_length rest (setlist ++ [song])]
        simp only [List.length_append, List.length_cons, List.length_nil]
        unfold total_needed at *
        omega
      · rw [if_neg h0, phase1_length rest _, pyInsert_length]
        simp only [List.length_cons, List.length_nil]
        unfold total_needed at *
        omega
    · rw [if_neg h]
      simp only [List.length_cons, List.length_nil]
      unfold total_needed at *
      omega

theorem phase1_perm :
    ∀ (rem setlist : List Item),
      List.Perm (phase1 setlist rem).1
        (setlist ++ rem.take (min (total_needed - setlist.length) rem.length))
  | [], setlist => by simp [phase1]
  | song :: rest, setlist => by
    simp only [phase1]
    by_cases h : setlist.length < total_needed
    · rw [if_pos h]
      have hk : min (total_needed - setlist.length) (song :: rest).length =
          min (total_needed - (setlist.length + 1)) rest.length + 1 := by
        simp only [List.length_cons, List.length_nil]
        unfold total_needed at *
        omega
      rw [hk, List.take_succ_cons]
      by_cases h0 : setlist.length = 0
      · rw [if_pos h0]
        have ih := phase1_perm rest (setlist ++ [song])
        have hlen : (setlist ++ [song]).length = setlist.length + 1 := by simp
        rw [hlen] at ih
        refine ih.trans ?_
        rw [List.append_assoc, List.singleton_append]
      · rw [if_neg h0]
        have ih := phase1_perm rest
          (pyInsert setlist
            (find_best_position_for_song setlist song 0 setlist.length) song)
        rw [pyInsert_length] at ih
        refine ih.trans ?_
        have hstep :
            List.Perm
              (pyInsert setlist
                  (find_best_position_for_song setlist song 0 setlist.length)
                  song ++
                rest.take (min (total_needed - (setlist.length + 1)) rest.length))
              ((song :: setlist) ++
                rest.take (min (total_needed - (setlist.length + 1)) rest.length)) :=
          (pyInsert_perm setlist _ song).append_right _
        refine hstep.trans ?_
        rw [List.cons_append]
        exact List.perm_middle.symm
    · rw [if_neg h]
      have hk : min (total_needed - setlist.length) (song :: rest).length = 0 := by
        unfold total_needed at *
        omega
      rw [hk]
      simp

theorem guestPhase_length :
    ∀ (pending guests setlist : List Item) (g : Nat),
      (guestPhase guests setlist g pending).length =
        setlist.length + min (total_needed - setlist.length) pending.length
  | [], guests, setlist, g => by simp [guestPhase]
  | guest :: rest, guests, setlist, g => by
    simp only [guestPhase]
    by_cases h : setlist.length < total_needed
    · rw [if_pos h, guestPhase_length rest guests _ (g + 1), pyInsert_length]
      simp only [List.length_cons, List.length_nil]
      unfold total_needed at *
      omega
    · rw [if_neg h]
      simp only [List.length_cons, List.length_nil]
      unfold total_needed at *
      omega

theorem guestPhase_perm :
    ∀ (pending guests setlist : List Item) (g : Nat),
      List.Perm (guestPhase guests setlist g pending)
        (setlist ++ pending.take (min (total_needed - setlist.length) pending.length))
  | [], guests, setlist, g => by simp [guestPhase]
  | guest :: rest, guests, setlist, g => by
    simp only [guestPhase]
    by_cases h : setlist.length < total_needed
    · rw [if_pos h]
      have hk : min (total_needed - setlist.length) (guest :: rest).length =
          min (total_needed - (setlist.length + 1)) rest.length + 1 := by
        simp only [List.length_cons, List.length_nil]
        unfold total_needed at *
        omega
      rw [hk, List.take_succ_cons]
      have ih := guestPhase_perm rest guests
        (pyInsert setlist (setlist.length * (g + 1) / (guests.length + 1)) guest)
        (g + 1)
      rw [pyInsert_length] at ih
      refine ih.trans ?_
      have hstep :
          List.Perm
            (pyInsert setlist (setlist.length * (g + 1) / (guests.length + 1))
                guest ++
              rest.take (min (total_needed - (setlist.length + 1)) rest.length))
            ((guest :: setlist) ++
              rest.take (min (total_needed - (setlist.length + 1)) rest.length)) :=
        (pyInsert_perm setlist _ guest).append_right _
      refine hstep.trans ?_
      rw [List.cons_append]
      exact List.perm_middle.symm
    · rw [if_neg h]
      have hk : min (total_needed - setlist.length) (guest :: rest).length = 0 := by
        unfold total_needed at *
        omega
      rw [hk]
      simp

theorem pyBuild_setlist (b tw : Item) (st : OptState) (σ : List Item) :
    (pyBuild b tw st σ).setlist =
      guestPhase st.guest_performances (phase1 [] σ).1 0 st.guest_performances ++
        [b, tw] := rfl

theorem pyBuild_frame (b tw : Item) (st : OptState) (σ : List Item) :
    (pyBuild b tw st σ).songs = st.songs ∧
      (pyBuild b tw st σ).guest_performances = st.guest_performances ∧
      (pyBuild b tw st σ).available_songs = st.available_songs ∧
      (pyBuild b tw st σ).best_score = st.best_score ∧
      (pyBuild b tw st σ).best_setlist = st.best_setlist :=
  ⟨rfl, rfl, rfl, rfl, rfl⟩

theorem pyIteration_frame (b tw : Item) (st : OptState) (σ : List Item) :
    (pyIteration b tw st σ).songs = st.songs ∧
      (pyIteration b tw st σ).guest_performances = st.guest_performances ∧
      (pyIteration b tw st σ).available_songs = st.available_songs := by
  dsimp only [pyIteration]
  split
  · exact ⟨rfl, rfl, rfl⟩
  · exact ⟨rfl, rfl, rfl⟩

theorem pyLoop_frame (b tw : Item) :
    ∀ (shuffles : List (List Item)) (st : OptState),
      (pyLoop b tw st shuffles).songs = st.songs ∧
        (pyLoop b tw st shuffles).guest_performances = st.guest_performances ∧
        (pyLoop b tw st shuffles).available_songs = st.available_songs
  | [], st => ⟨rfl, rfl, rfl⟩
  | σ :: rest, st => by
    simp only [pyLoop]
    obtain ⟨h1, h2, h3⟩ := pyLoop_frame b tw rest (pyIteration b tw st σ)
    obtain ⟨g1, g2, g3⟩ := pyIteration_frame b tw st σ
    exact ⟨h1.trans g1, h2.trans g2, h3.trans g3⟩

theorem pyLoop_append (b tw : Item) :
    ∀ (l : List (List Item)) (st : OptState) (σ : List Item),
      pyLoop b tw st (l ++ [σ]) = pyIteration b tw (pyLoop b tw st l) σ
  | [], st, σ => rfl
  | τ :: rest, st, σ => by
    simp only [List.cons_append, pyLoop]
    exact pyLoop_append b tw rest (pyIteration b tw st τ) σ

theorem pyIteration_best_mono (b tw : Item) (st : OptState) (σ : List Item) :
    st.best_score ≤ (pyIteration b tw st σ).best_score := by
  dsimp only [pyIteration]
  split
  · exact le_of_lt (by simpa using (by assumption :
      (pyBuild b tw st σ).best_score <
        ((calculate_setlist_score (pyBuild b tw st σ).setlist : Int) : WithBot Int)))
  · exact le_of_eq rfl

theorem pyIteration_tie (b tw : Item) (st : OptState) (σ : List Item)
    (h : ((calculate_setlist_score (pyBuild b tw st σ).setlist : Int) : WithBot Int)
      = st.best_score) :
    (pyIteration b tw st σ).best_score = st.best_score ∧
      (pyIteration b tw st σ).best_setlist = st.best_setlist := by
  dsimp only [pyIteration]
  rw [if_neg]
  · exact ⟨rfl, rfl⟩
  · rw [(pyBuild_frame b tw st σ).2.2.2.1, ← h]
    exact lt_irrefl _

/-- C5: every trial's built sequence ends with the two anchors, in the fixed
order anchor1 then anchor2. -/
theorem trial_ends_with_anchors (bouncy this_world : Item) (st : OptState)
    (σ : List Item) :
    ∃ pre, (pyBuild bouncy this_world st σ).setlist = pre ++ [bouncy, this_world] :=
  ⟨guestPhase st.guest_performances (phase1 [] σ).1 0 st.guest_performances, rfl⟩

/-- C6: while the sequence has fewer than 19 items and guests remain, guest
`g` is inserted at `floor(len * (g+1) / (guestCount+1))` and the ordinal
advances; the step involves no scoring. -/
theorem guest_step (guests setlist : List Item) (g : Nat)
    (h1 : setlist.length < total_needed) (h2 : g < guests.length) :
    guestPhase guests setlist g (guests.drop g) =
      guestPhase guests
        (pyInsert setlist (setlist.length * (g + 1) / (guests.length + 1))
          (guests.getD g default))
        (g + 1) (guests.drop (g + 1)) := by
  have hd : guests.drop g = guests.getD g default :: guests.drop (g + 1) := by
    rw [List.drop_eq_getElem_cons h2, List.getD_eq_getElem guests default h2]
  rw [hd]
  simp only [guestPhase]
  rw [if_pos h1]

/-- C9: the optimizer loop never changes the caller-visible lists: the
`songs` pool, the `guest_performances` pool (and the derived
`available_songs`) are identical after any number of iterations; items are
immutable values, so every item's name and performer set is unchanged. -/
theorem optimizer_no_mutation (bouncy this_world : Item) (st : OptState)
    (shuffles : List (List Item)) :
    (pyLoop bouncy this_world st shuffles).songs = st.songs ∧
      (pyLoop bouncy this_world st shuffles).guest_performances =
        st.guest_performances ∧
      (pyLoop bouncy this_world st shuffles).available_songs =
        st.available_songs :=
  pyLoop_frame bouncy this_world shuffles st

/-- C10: a trial built from a shuffled copy of the available pool has length
`min 19 (|available| + |guests|) + 2`, and is a permutation of the popped
pool items, the placed guests, and the two anchors (nothing duplicated or
dropped). -/
theorem trial_shape (bouncy this_world : Item) (st : OptState)
    (avail σ : List Item) (hσ : List.Perm σ avail) :
    (pyBuild bouncy this_world st σ).setlist.length =
        min total_needed (avail.length + st.guest_performances.length) + 2 ∧
      List.Perm (pyBuild bouncy this_world st σ).setlist
        (σ.take (min total_needed σ.length) ++
          st.guest_performances.take
            (min (total_needed - min total_needed σ.length)
              st.guest_performances.length) ++
          [bouncy, this_world]) := by
  have hp1len : (phase1 [] σ).1.length = min total_needed σ.length := by
    rw [phase1_length]
    simp
  constructor
  · rw [pyBuild_setlist, List.length_append, guestPhase_length, hp1len]
    have hle := hσ.length_eq
    simp only [List.length_cons, List.length_nil]
    omega
  · rw [pyBuild_setlist]
    have h1 : List.Perm (phase1 [] σ).1 (σ.take (min total_needed σ.length)) := by
      have hp := phase1_perm σ []
      simpa using hp
    have h2 := guestPhase_perm st.guest_performances st.guest_performances
      (phase1 [] σ).1 0
    rw [hp1len] at h2
    refine ((h2.trans (h1.append_right _)).append_right _).trans ?_
    rw [List.append_assoc]

/-- C8: with the shuffle oracle held fixed, the recorded best score after
`N + 1` trials is never worse than after the first `N`, and a final trial
whose score only ties the incumbent best changes neither the best score nor
the recorded best sequence. -/
theorem optimizer_monotone_and_ties (bouncy this_world : Item) (st : OptState)
    (shuffles : List (List Item)) (σ : List Item) :
    (pyLoop bouncy this_world st shuffles).best_score ≤
        (pyLoop bouncy this_world st (shuffles ++ [σ])).best_score ∧
      (((calculate_setlist_score
            (pyBuild bouncy this_world (pyLoop bouncy this_world st shuffles)
              σ).setlist : Int) : WithBot Int) =
          (pyLoop bouncy this_world st shuffles).best_score →
        (pyLoop bouncy this_world st (shuffles ++ [σ])).best_score =
            (pyLoop bouncy this_world st shuffles).best_score ∧
          (pyLoop bouncy this_world st (shuffles ++ [σ])).best_setlist =
            (pyLoop bouncy this_world st shuffles).best_setlist) := by
  rw [pyLoop_append]
  exact ⟨pyIteration_best_mono bouncy this_world _ σ,
    fun h => pyIteration_tie bouncy this_world _ σ h⟩

/-- C4: if no regular item's name contains "Bouncy", or none contains
"This World", `generateSetlist` fails with the missing-anchor error, for any
iteration count (the oracle list is universally quantified, so no trial
influences the outcome). -/
theorem missing_anchor_error (songs guests : List Item)
    (shuffles : List (List Item))
    (h : (∀ s ∈ songs, strIn "Bouncy" s.name = false) ∨
      (∀ s ∈ songs, strIn "This World" s.name = false)) :
    generateSetlist songs guests shuffles = Except.error PyError.missingAnchor := by
  unfold generateSetlist
  rcases h with h | h
  · have hf : songs.find? (fun s => strIn "Bouncy" s.name) = none :=
      List.find?_eq_none.mpr (by simpa using h)
    rw [hf]
  · have hf : songs.find? (fun s => strIn "This World" s.name) = none :=
      List.find?_eq_none.mpr (by simpa using h)
    rw [hf]
    cases hb : songs.find? (fun s => strIn "Bouncy" s.name) <;> rfl

def sampleBouncy : Item := ⟨"Bouncy", {"Ann"}⟩

def sampleWorld : Item := ⟨"This World", {"Ann"}⟩

def sampleSongA : Item := ⟨"Song A", {"Alice"}⟩

def sampleSongB : Item := ⟨"Song B", {"Alice"}⟩

def sampleGuest : Item := ⟨"Guest Spot", {"Guest Performer"}⟩

/-- A starting state as `generateSetlist` would build it for the sample pool. -/
def st0sample : OptState :=
  { songs := [sampleBouncy, sampleWorld], guest_performances := [],
    available_songs := [], shuffled := [], remaining := [], setlist := [],
    best_score := ⊥, best_setlist := none }

/-- C1 counterexample: on a pool holding only the two anchors, one iteration
wins with a 2-item sequence, and the grouping step returns a group list
(`Except.ok`) instead of failing. -/
theorem pipeline_groups_short_sequence :
    generateSetlist [sampleBouncy, sampleWorld] [] [[]] =
        Except.ok [[sampleBouncy, sampleWorld], [], [], []] ∧
      ([sampleBouncy, sampleWorld] : List Item).length ≠ 21 :=
  ⟨rfl, by decide⟩

/-- C1 (amended): the grouping step never fails; for any winning sequence it
returns the four slices `[0:5]`, `[5:10]`, `[10:15]`, `[15:21]`, whose
concatenation is the first `min(length, 21)` items. -/
theorem splitGroups_clips (l : List Item) :
    (splitGroups l).length = 4 ∧ (splitGroups l).flatten = l.take 21 := by
  refine ⟨rfl, ?_⟩
  simp only [splitGroups]
  rw [show (21 : Nat) = 5 + (5 + (5 + 6)) from rfl, List.take_add,
    List.take_add, List.take_add, List.drop_drop, List.drop_drop]
  norm_num [List.flatten]

theorem find_best_position_spec_witness :
    (0 : Nat) ≤ 1 ∧
      (0 ≤ find_best_position_for_song [sampleSongA] sampleSongB 0 1 ∧
        find_best_position_for_song [sampleSongA] sampleSongB 0 1 ≤ 1 ∧
        (∀ q, 0 ≤ q → q ≤ 1 →
          windowScore [sampleSongA] sampleSongB q ≤
            windowScore [sampleSongA] sampleSongB
              (find_best_position_for_song [sampleSongA] sampleSongB 0 1)) ∧
        (∀ q, 0 ≤ q →
          q < find_best_position_for_song [sampleSongA] sampleSongB 0 1 →
          windowScore [sampleSongA] sampleSongB q <
            windowScore [sampleSongA] sampleSongB
              (find_best_position_for_song [sampleSongA] sampleSongB 0 1))) :=
  ⟨by decide, find_best_position_spec [sampleSongA] sampleSongB 0 1 (by decide)⟩

theorem missing_anchor_error_witness :
    ((∀ s ∈ [sampleSongA], strIn "Bouncy" s.name = false) ∨
        (∀ s ∈ [sampleSongA], strIn "This World" s.name = false)) ∧
      generateSetlist [sampleSongA] [] [] = Except.error PyError.missingAnchor :=
  ⟨Or.inl (by decide),
    missing_anchor_error [sampleSongA] [] [] (Or.inl (by decide))⟩

theorem guest_step_witness :
    (([] : List Item).length < total_needed ∧ 0 < [sampleGuest].length) ∧
      guestPhase [sampleGuest] [] 0 ([sampleGuest].drop 0) =
        guestPhase [sampleGuest]
          (pyInsert []
            (([] : List Item).length * (0 + 1) / ([sampleGuest].length + 1))
            ([sampleGuest].getD 0 default))
          (0 + 1) ([sampleGuest].drop (0 + 1)) :=
  ⟨⟨by decide, by decide⟩, guest_step [sampleGuest] [] 0 (by decide) (by decide)⟩

theorem optimizer_monotone_and_ties_witness :
    ((pyLoop sampleBouncy sampleWorld st0sample [[]]).best_score ≤
        (pyLoop sampleBouncy sampleWorld st0sample ([[]] ++ [[]])).best_score) ∧
      (((calculate_setlist_score
            (pyBuild sampleBouncy sampleWorld
              (pyLoop sampleBouncy sampleWorld st0sample [[]]) []).setlist :
              Int) : WithBot Int) =
          (pyLoop sampleBouncy sampleWorld st0sample [[]]).best_score) ∧
      ((pyLoop sampleBouncy sampleWorld st0sample ([[]] ++ [[]])).best_score =
          (pyLoop sampleBouncy sampleWorld st0sample [[]]).best_score ∧
        (pyLoop sampleBouncy sampleWorld st0sample ([[]] ++ [[]])).best_setlist =
          (pyLoop sampleBouncy sampleWorld st0sample [[]]).best_setlist) :=
  ⟨(optimizer_monotone_and_ties sampleBouncy sampleWorld st0sample [[]] []).1,
    by decide,
    (optimizer_monotone_and_ties sampleBouncy sampleWorld st0sample [[]] []).2
      (by decide)⟩

theorem trial_shape_witness :
    List.Perm [sampleSongA] [sampleSongA] ∧
      ((pyBuild sampleBouncy sampleWorld st0sample [sampleSongA]).setlist.length =
          min total_needed
              ([sampleSongA].length + st0sample.guest_performances.length) + 2 ∧
        List.Perm
          (pyBuild sampleBouncy sampleWorld st0sample [sampleSongA]).setlist
          ([sampleSongA].take (min total_needed [sampleSongA].length) ++
            st0sample.guest_performances.take
              (min (total_needed - min total_needed [sampleSongA].length)
                st0sample.guest_performances.length) ++
            [sampleBouncy, sampleWorld])) :=
  ⟨List.Perm.refl _,
    trial_shape sampleBouncy sampleWorld st0sample [sampleSongA] [sampleSongA]
      (List.Perm.refl _)⟩
